import Mathlib

/-!
Verification of the ContentMonitor keyword filter and collection pipeline.

The development shallowly embeds the Python sources:
* `config.py` — the three keyword lists and `matches_keywords`;
* `content_monitor.py` — `_deduplicate`;
* `tools/web_scraper.py` — `_fetch_page` status/content classification,
  the CAPTCHA pattern scan, `_extract_entries`, `_filter_entries` and the
  per-URL part of `execute`;
* `tools/google_search.py` — the success/error contract of `execute`;
* `tools/feed_reader.py` — `_parse_feed` and `execute`.

Python strings are embedded as Lean `String` (a sequence of code points,
matching the Python `str`); `str.lower()` is embedded for Basic Latin and
Latin-1 letter ranges, which cover every character of the configured
keyword lists; `in` on strings is list-infix of the underlying code-point
lists. External collaborators (the HTTP client, `feedparser`,
`BeautifulSoup`, `urllib.parse`) are passed in as oracle arguments: the
functions under verification receive their outputs, exactly as the Python
code receives parsed responses, parsed feeds and parsed documents.
-/

/-- Python `str.lower()` restricted to the Basic Latin and Latin-1 letter
ranges (the only ranges occurring in the configured keyword lists):
ASCII capitals and the Latin-1 capitals À–Þ (except ×) map down by 0x20,
everything else is unchanged. -/
def pyLower (c : Char) : Char :=
  if 'A' ≤ c ∧ c ≤ 'Z' then Char.ofNat (c.toNat + 32)
  else if 'À' ≤ c ∧ c ≤ 'Þ' ∧ c ≠ '×' then Char.ofNat (c.toNat + 32)
  else c

/-- The code-point list of `s.lower()`. -/
def lowerData (s : String) : List Char := s.data.map pyLower

/-- Python `kw.lower() in text.lower()`: case-insensitive substring
occurrence, the elementary test of `config.matches_keywords`. -/
def kwHit (kw text : String) : Bool := decide (lowerData kw <:+: lowerData text)

/-- Embeds `config.PRIMARY_KEYWORDS`. -/
def PRIMARY_KEYWORDS : List String :=
  ["anti pirateria", "anti piratería", "anti-pirateria", "anti-piratería",
   "antipirateria", "antipiratería", "pirateria", "piratería", "operativo",
   "bloqueo", "cardsharing", "IPTV", "decodificadores", "VIARK",
   "LaLiga Content Protection", "decodificador", "receptor", "señal robada",
   "piracy shield", "Blackhole", "Lumière", "Neko", "Sentry", "Vento",
   "Sportian", "decomiso", "incautación", "ciberdelincuencia", "streaming",
   "ilegal", "sitio pirata", "combate a la ciberdelincuencia",
   "combate a la pirateria", "medida contra la pirateria", "Desmantelan red",
   "derechos", "indecopi", "IMPI", "Gabriel Drouet", "Tebas", "javier tebas",
   "jorge bacaloni", "fraude audiovisual", "Ley", "copyright", "firmware"]

/-- Embeds `config.SECONDARY_KEYWORDS`. -/
def SECONDARY_KEYWORDS : List String :=
  ["contra la", "lucha contra la", "de streaming", "red de", "de televisión",
   "de canales", "de señal", "de operativo", "investigación", "delito",
   "ilegal", "pirata", "digital", "audiovisual", "en línea", "Online",
   "de TV", "operativo", "dinámico", "de sitios", "de IP", "de plataformas",
   "venta de", "Desbloqueo", "SKY", "Megacable", "DirecTV", "Cablevisión",
   "de fútbol", "de decodificadores", "ilegal", "sitio de", "páginas de",
   "de contenido", "difusión", "contenido", "de autor",
   "de Propiedad Intelectual"]

/-- Embeds `config.REGION_KEYWORDS`. -/
def REGION_KEYWORDS : List String :=
  ["VIARK",
   "México", "Mexico", "Colombia", "Argentina", "Chile", "Perú", "Peru",
   "Brasil", "Brazil", "Venezuela", "Ecuador", "Bolivia", "Paraguay",
   "Uruguay", "Cuba", "Costa Rica", "Panamá", "Guatemala", "Honduras",
   "El Salvador", "Nicaragua", "República Dominicana", "Puerto Rico",
   "América Latina", "Latinoamérica", "LATAM", "Centroamérica", "Sudamérica",
   "Caribe", "latinoamericano", "latinoamericana",
   "Ciudad de México", "CDMX", "Bogotá", "Buenos Aires", "Santiago", "Lima",
   "São Paulo", "Sao Paulo", "Río de Janeiro", "Caracas", "Quito",
   "Montevideo", "Guadalajara", "Monterrey", "Medellín",
   "INDECOPI", "IMPI", "IFT", "Megacable", "Televisa", "TV Azteca", "Claro",
   "Telmex", "Mercosur", "Liga MX"]

/-- Embeds `config.matches_keywords`: region gate first, then the
primary-or-secondary gate, returning `(passes, matched_keywords)`. -/
def matches_keywords (text : String) : Bool × List String :=
  let region_hits := REGION_KEYWORDS.filter (fun kw => kwHit kw text)
  if region_hits.isEmpty then (false, [])
  else
    let primary_hits := PRIMARY_KEYWORDS.filter (fun kw => kwHit kw text)
    let secondary_hits := SECONDARY_KEYWORDS.filter (fun kw => kwHit kw text)
    if primary_hits.isEmpty && secondary_hits.isEmpty then (false, [])
    else (true, primary_hits ++ secondary_hits ++ region_hits)

/-- One CSV row assembled by `content_monitor.py` (`CSV_COLUMNS`). Only
`url` is inspected by `_deduplicate`. -/
structure Row where
  date : String
  url : String
  title : String
  summary : String
  source : String
  matched_keywords : String
  tool : String
deriving DecidableEq, Repr

/-- The loop of `content_monitor._deduplicate`: `seen` is the set of URLs
added so far; a row is dropped when its URL is non-empty and already seen,
otherwise it is kept and its URL recorded. -/
def dedupGo (seen : List String) : List Row → List Row
  | [] => []
  | row :: rest =>
    if row.url ≠ "" ∧ row.url ∈ seen then dedupGo seen rest
    else row :: dedupGo (row.url :: seen) rest

/-- Embeds `content_monitor._deduplicate`. -/
def _deduplicate (rows : List Row) : List Row := dedupGo [] rows

/-- The deduplicator as the claim words it: iterate in input order, keep a
row iff its URL is empty or no earlier row of the input carries the same
URL (`pre` is the list of rows already processed). -/
def dedupeSpecGo (pre : List Row) : List Row → List Row
  | [] => []
  | row :: rest =>
    if row.url = "" ∨ ∀ q ∈ pre, q.url ≠ row.url then
      row :: dedupeSpecGo (pre ++ [row]) rest
    else dedupeSpecGo (pre ++ [row]) rest

/-- First-occurrence-wins deduplication, stated from the claim. -/
def dedupeSpec (rows : List Row) : List Row := dedupeSpecGo [] rows

/-- Python `needle in hay` on strings: substring containment. -/
def containsSub (hay needle : String) : Bool :=
  decide (needle.data <:+: hay.data)

/-- Python `s.strip()` (for the whitespace repertoire of the scraped
`href` attributes). -/
def pyStrip (s : String) : String :=
  ⟨((s.data.dropWhile Char.isWhitespace).reverse.dropWhile
      Char.isWhitespace).reverse⟩

/-- Python `s.startswith(p)`. -/
def strStarts (s p : String) : Bool := decide (p.data <+: s.data)

/-- Regex atoms sufficient for `web_scraper._CAPTCHA_PATTERNS`: literal
characters (compared case-insensitively, `re.IGNORECASE`), the `.`
wildcard (any character except a newline), and an optional character
class such as `[-_]?`. -/
inductive RAtom
  | lit (c : Char)
  | dot
  | optCls (cs : List Char)
deriving DecidableEq, Repr

/-- Matching a pattern against a prefix of the character list: an
optional class consumes one character of the class or nothing, a literal
consumes one matching character, `.` consumes one non-newline character. -/
def reMatch : List RAtom → List Char → Bool
  | [], _ => true
  | RAtom.optCls _ :: p, [] => reMatch p []
  | RAtom.optCls cs :: p, x :: s =>
      reMatch p (x :: s) || (cs.contains x && reMatch p s)
  | RAtom.lit _ :: _, [] => false
  | RAtom.dot :: _, [] => false
  | RAtom.lit c :: p, x :: s => (pyLower x == pyLower c) && reMatch p s
  | RAtom.dot :: p, x :: s => (x != '\n') && reMatch p s

/-- Embeds `re.search` for one alternative: does the pattern match at some
position of the text? -/
def reSearch (p : List RAtom) : List Char → Bool
  | [] => reMatch p []
  | x :: s => reMatch p (x :: s) || reSearch p s

/-- A run of literal atoms. -/
def strLits (s : String) : List RAtom := s.data.map RAtom.lit

/-- Embeds `web_scraper._CAPTCHA_PATTERNS`: the eight alternatives of the
case-insensitive pattern
`(captcha|recaptcha|hcaptcha|cf[-_]?challenge|verify.you.are.human|`
`are.you.a.robot|access.denied|please.enable.javascript)`. -/
def _CAPTCHA_PATTERNS : List (List RAtom) :=
  [strLits "captcha",
   strLits "recaptcha",
   strLits "hcaptcha",
   strLits "cf" ++ [RAtom.optCls ['-', '_']] ++ strLits "challenge",
   strLits "verify" ++ [RAtom.dot] ++ strLits "you" ++ [RAtom.dot]
     ++ strLits "are" ++ [RAtom.dot] ++ strLits "human",
   strLits "are" ++ [RAtom.dot] ++ strLits "you" ++ [RAtom.dot]
     ++ strLits "a" ++ [RAtom.dot] ++ strLits "robot",
   strLits "access" ++ [RAtom.dot] ++ strLits "denied",
   strLits "please" ++ [RAtom.dot] ++ strLits "enable" ++ [RAtom.dot]
     ++ strLits "javascript"]

/-- Embeds `_CAPTCHA_PATTERNS.search(s)` as a boolean. -/
def captchaSearch (s : List Char) : Bool :=
  _CAPTCHA_PATTERNS.any (fun p => reSearch p s)

/-- The response the HTTP collaborator hands back to `_fetch_page`:
status code, the `Content-Type` header (empty when absent) and the
decoded body `resp.text`. -/
structure HttpResponse where
  status_code : Nat
  content_type : String
  body : String
deriving DecidableEq, Repr

/-- Embeds `web_scraper._AUTH_STATUS_CODES`. -/
def _AUTH_STATUS_CODES : List Nat := [401, 403, 407]

/-- Embeds `web_scraper._CHALLENGE_STATUS_CODES`. -/
def _CHALLENGE_STATUS_CODES : List Nat := [429, 503]

/-- Embeds `requests.Response.ok`: `False` exactly when `raise_for_status` would
raise, i.e. when `400 <= status_code < 600`. -/
def resp_ok (status : Nat) : Bool := !decide (400 ≤ status ∧ status < 600)

/-- The `requests` exceptions caught by `_fetch_page`. -/
inductive ReqError
  | ssl
  | conn
  | timeout
  | tooManyRedirects
  | otherReq (msg : String)
deriving DecidableEq, Repr

/-- The skip reason each caught exception maps to (`_REQUEST_TIMEOUT`
is 15). -/
def reqErrorReason : ReqError → String
  | .ssl => "SSL certificate error"
  | .conn => "Connection error (DNS or network failure)"
  | .timeout => "Request timed out after 15s"
  | .tooManyRedirects => "Too many redirects"
  | .otherReq msg => "Request error: " ++ msg

/-- Embeds `web_scraper.WebScraperTool._fetch_page`, applied to the outcome of
the `requests.get` call: returns `(html, none)` on success or
`(none, reason)` when the page must be skipped. -/
def _fetch_page (r : Except ReqError HttpResponse) :
    Option String × Option String :=
  match r with
  | .error e => (none, some (reqErrorReason e))
  | .ok resp =>
    if resp.status_code ∈ _AUTH_STATUS_CODES then
      (none, some ("HTTP " ++ toString resp.status_code
        ++ " — authentication or access denied"))
    else if resp.status_code ∈ _CHALLENGE_STATUS_CODES then
      (none, some ("HTTP " ++ toString resp.status_code
        ++ " — rate-limited or anti-bot challenge"))
    else if !resp_ok resp.status_code then
      (none, some ("HTTP " ++ toString resp.status_code))
    else if !containsSub resp.content_type "text/html"
        && !containsSub resp.content_type "application/xhtml" then
      (none, some ("Non-HTML content type: " ++ resp.content_type))
    else if captchaSearch (resp.body.data.take 5000) then
      (none, some "Page contains a CAPTCHA or anti-bot challenge")
    else (some resp.body, none)

/-- One `<a href=...>` tag as `BeautifulSoup` presents it to
`_extract_entries`: its `href` attribute, the whitespace-collapsed visible
text of the nearest container ancestor (`article`/`li`/`div`/`tr`/
`section`/headings; the text of the anchor itself when no such ancestor
exists), and the visible text of the anchor itself. -/
structure Anchor where
  href : String
  containerText : String
  anchorText : String
deriving DecidableEq, Repr

/-- A `{url, text}` dict produced by `_extract_entries`. -/
structure PageEntry where
  url : String
  text : String
deriving DecidableEq, Repr

/-- The anchor loop of `web_scraper.WebScraperTool._extract_entries`:
`resolve` is `urljoin(base_url, ·)` (the `urllib.parse` collaborator),
`seen` the per-page set of resolved URLs, `entries` the accumulator.
`_MAX_ENTRIES_PER_URL` is 200. -/
def _extract_entries_go (resolve : String → String) :
    List String → List PageEntry → List Anchor → List PageEntry
  | _, entries, [] => entries
  | seen, entries, a :: rest =>
    let href := pyStrip a.href
    if href == "" || strStarts href "#" || strStarts href "javascript:"
        || strStarts href "mailto:" then
      _extract_entries_go resolve seen entries rest
    else
      let absolute_url := resolve href
      if absolute_url ∈ seen then
        _extract_entries_go resolve seen entries rest
      else
        let text := if a.containerText == "" then a.anchorText
          else a.containerText
        if text.length < 15 then
          _extract_entries_go resolve (absolute_url :: seen) entries rest
        else
          let entries2 := entries ++ [⟨absolute_url, text⟩]
          if 200 ≤ entries2.length then entries2
          else _extract_entries_go resolve (absolute_url :: seen) entries2 rest

/-- Embeds `web_scraper.WebScraperTool._extract_entries`. -/
def _extract_entries (resolve : String → String → String) (base_url : String)
    (anchors : List Anchor) : List PageEntry :=
  _extract_entries_go (resolve base_url) [] [] anchors

/-- An anchor whose stripped href is non-empty and is not a fragment,
script or mail link. -/
def hrefAccepted (a : Anchor) : Bool :=
  !(pyStrip a.href == "" || strStarts (pyStrip a.href) "#"
    || strStarts (pyStrip a.href) "javascript:"
    || strStarts (pyStrip a.href) "mailto:")

/-- The context text chosen for an anchor: the visible text of the
nearest container, falling back to the text of the anchor itself. -/
def contextTextOf (a : Anchor) : String :=
  if a.containerText == "" then a.anchorText else a.containerText

/-- Entry extraction as the claim words it: process anchors in input
order, with `pre` the anchors already processed; an anchor with an
accepted href is considered only when no earlier accepted anchor resolves
to the same absolute URL — the first occurrence of a resolved URL wins
within the page; a considered anchor is kept when its context text is at
least 15 characters long; extraction stops once 200 entries are kept. -/
def extractSpecGo (resolve : String → String) :
    List Anchor → List PageEntry → List Anchor → List PageEntry
  | _, acc, [] => acc
  | pre, acc, a :: rest =>
    if hrefAccepted a = false then
      extractSpecGo resolve (pre ++ [a]) acc rest
    else if (pre.filter hrefAccepted).any
        (fun b => resolve (pyStrip b.href) == resolve (pyStrip a.href)) then
      extractSpecGo resolve (pre ++ [a]) acc rest
    else if (contextTextOf a).length < 15 then
      extractSpecGo resolve (pre ++ [a]) acc rest
    else
      let acc2 := acc ++ [⟨resolve (pyStrip a.href), contextTextOf a⟩]
      if 200 ≤ acc2.length then acc2
      else extractSpecGo resolve (pre ++ [a]) acc2 rest

/-- First-occurrence-wins entry extraction, stated from the claim. -/
def extractSpec (resolve : String → String → String) (base_url : String)
    (anchors : List Anchor) : List PageEntry :=
  extractSpecGo (resolve base_url) [] [] anchors

/-- One element of the `results` list of the scrape adapter. -/
structure ScrapeResult where
  url : String
  text : String
  matched_keywords : List String
  source_page : String
deriving DecidableEq, Repr

/-- Embeds `web_scraper.WebScraperTool._filter_entries`: keep only entries whose
text passes `matches_keywords`, trimming stored text to 500 characters. -/
def _filter_entries (entries : List PageEntry) (source_url : String) :
    List ScrapeResult :=
  entries.filterMap (fun entry =>
    let pm := matches_keywords entry.text
    if pm.1 then some ⟨entry.url, ⟨entry.text.data.take 500⟩, pm.2, source_url⟩
    else none)

/-- One element of the `skipped` list of the scrape adapter. -/
structure Skipped where
  url : String
  reason : String
deriving DecidableEq, Repr

/-- The per-URL body of `web_scraper.WebScraperTool.execute`: `validate`
is `_validate_url` (the `urllib.parse` collaborator), `fetch` the
`requests.get` outcome, `soup` the `BeautifulSoup` anchor scan of the
fetched html. Returns the contribution of this URL to
`(results, skipped)`. -/
def processURL (validate : String → Bool)
    (fetch : String → Except ReqError HttpResponse)
    (soup : String → List Anchor) (resolve : String → String → String)
    (url : String) : List ScrapeResult × List Skipped :=
  if !validate url then ([], [⟨url, "Invalid URL format"⟩])
  else
    match _fetch_page (fetch url) with
    | (_, some reason) => ([], [⟨url, reason⟩])
    | (some html, none) =>
        (_filter_entries (_extract_entries resolve url (soup html)) url, [])
    | (none, none) => ([], [])

/-- The URL loop of `web_scraper.WebScraperTool.execute`: concatenates
the contribution of each URL in order. -/
def executeScrape (validate : String → Bool)
    (fetch : String → Except ReqError HttpResponse)
    (soup : String → List Anchor) (resolve : String → String → String) :
    List String → List ScrapeResult × List Skipped
  | [] => ([], [])
  | url :: rest =>
    let pr := processURL validate fetch soup resolve url
    let tail := executeScrape validate fetch soup resolve rest
    (pr.1 ++ tail.1, pr.2 ++ tail.2)

/-- One raw item of the Google Custom Search response, already normalised
to `{title, link, snippet}` by the comprehension in `execute`. -/
structure RawSearchItem where
  title : String
  link : String
  snippet : String
deriving DecidableEq, Repr

/-- A kept search result: the raw item with `matched_keywords` attached. -/
structure SearchHit where
  title : String
  link : String
  snippet : String
  matched_keywords : List String
deriving DecidableEq, Repr

/-- The two JSON shapes `google_search.GoogleSearchTool.execute` can
return: an array of hits, or the object `{error: message}`. -/
inductive SearchResponse
  | results (hits : List SearchHit)
  | error (msg : String)
deriving DecidableEq, Repr

/-- Embeds `google_search.GoogleSearchTool.execute`: the whole provider call is
inside one `try` block — an exception becomes the `{error: str(exc)}`
object; on success each item is filtered through `matches_keywords` over
`title + " " + snippet`. -/
def googleExecute (provider : Except String (List RawSearchItem)) :
    SearchResponse :=
  match provider with
  | .error exc => .error exc
  | .ok items =>
    .results (items.filterMap (fun it =>
      let text := it.title ++ " " ++ it.snippet
      let pm := matches_keywords text
      if pm.1 then some ⟨it.title, it.link, it.snippet, pm.2⟩ else none))

/-- The hits carried by a `SearchResponse` (empty for the error object). -/
def hitsOf : SearchResponse → List SearchHit
  | .results hits => hits
  | .error _ => []

/-- One feed entry as `feedparser` presents it: the attributes read by
`_parse_feed`, with `date` standing for the result of `_extract_date`
(published timestamp, else updated timestamp, else empty string). -/
structure FeedEntry where
  title : String
  summary : String
  link : String
  date : String
deriving DecidableEq, Repr

/-- A parsed feed: its HTTP status when `feedparser` reports one, and its
entry list (empty when the feed has no entries). -/
structure Feed where
  status : Option Nat
  entries : List FeedEntry
deriving DecidableEq, Repr

/-- An article dict built by `_parse_feed`. -/
structure Article where
  date : String
  url : String
  title : String
  summary : String
  source : String
deriving DecidableEq, Repr

/-- A feed candidate: the article with `matched_keywords` attached by
the pre-filter in `execute`. -/
structure FeedCandidate where
  date : String
  url : String
  title : String
  summary : String
  source : String
  matched_keywords : List String
deriving DecidableEq, Repr

/-- Embeds `feed_reader.FeedReaderTool._parse_feed`, applied to the parsed feed:
a reported non-200 status or an empty entry list contributes zero
articles; otherwise every entry becomes an article. -/
def _parse_feed (feed_url : String) (feed : Feed) : List Article :=
  if (match feed.status with | some s => s != 200 | none => false) then []
  else if feed.entries.isEmpty then []
  else feed.entries.map (fun e => ⟨e.date, e.link, e.title, e.summary, feed_url⟩)

/-- Embeds `feed_reader.FeedReaderTool.execute`: drop URLs failing
`_validate_url` (the `urllib.parse` collaborator `validate`), parse every
valid feed (`fetchFeed` is the `feedparser` collaborator), then keep only
articles whose `title + " " + summary` passes `matches_keywords`. The
output is a bare candidate list — it has no error channel. -/
def feedExecute (validate : String → Bool) (fetchFeed : String → Feed)
    (feed_urls : List String) : List FeedCandidate :=
  let valid_feeds := feed_urls.filter validate
  let all_articles := valid_feeds.flatMap
    (fun url => _parse_feed url (fetchFeed url))
  all_articles.filterMap (fun article =>
    let text := article.title ++ " " ++ article.summary
    let pm := matches_keywords text
    if pm.1 then
      some ⟨article.date, article.url, article.title, article.summary,
        article.source, pm.2⟩
    else none)

/-- The early-return structure of `matches_keywords`, written as nested
conditionals (definitionally equal to the `let`-form above). -/
lemma matches_keywords_eq (text : String) :
    matches_keywords text =
      if (REGION_KEYWORDS.filter (fun kw => kwHit kw text)).isEmpty then
        (false, [])
      else if (PRIMARY_KEYWORDS.filter (fun kw => kwHit kw text)).isEmpty
          && (SECONDARY_KEYWORDS.filter (fun kw => kwHit kw text)).isEmpty then
        (false, [])
      else
        (true,
          PRIMARY_KEYWORDS.filter (fun kw => kwHit kw text)
            ++ SECONDARY_KEYWORDS.filter (fun kw => kwHit kw text)
            ++ REGION_KEYWORDS.filter (fun kw => kwHit kw text)) := rfl

lemma filter_isEmpty_iff (p : String → Bool) (l : List String) :
    (l.filter p).isEmpty = true ↔ ∀ kw ∈ l, ¬p kw = true := by
  rw [List.isEmpty_iff, List.filter_eq_nil_iff]

lemma filter_not_isEmpty_iff (p : String → Bool) (l : List String) :
    ¬(l.filter p).isEmpty = true ↔ ∃ kw ∈ l, p kw = true := by
  rw [filter_isEmpty_iff]
  push_neg
  simp

/-- C1: `matches_keywords` passes iff some region keyword occurs
case-insensitively in the text and some primary or secondary keyword also
occurs; in every failing case it returns exactly `(false, [])`. -/
theorem C1_matches_keywords_gate (text : String) :
    ((matches_keywords text).1 = true ↔
      ((∃ kw ∈ REGION_KEYWORDS, kwHit kw text = true) ∧
        ∃ kw, (kw ∈ PRIMARY_KEYWORDS ∨ kw ∈ SECONDARY_KEYWORDS) ∧
          kwHit kw text = true)) ∧
    ((matches_keywords text).1 = false → matches_keywords text = (false, [])) := by
  rw [matches_keywords_eq]
  by_cases hr : (REGION_KEYWORDS.filter (fun kw => kwHit kw text)).isEmpty = true
  · rw [if_pos hr]
    refine ⟨⟨fun h => by simp at h, ?_⟩, fun _ => rfl⟩
    rintro ⟨⟨kw, hkw, hhit⟩, -⟩
    rw [filter_isEmpty_iff] at hr
    exact absurd hhit (hr kw hkw)
  · rw [if_neg hr]
    by_cases hps : ((PRIMARY_KEYWORDS.filter (fun kw => kwHit kw text)).isEmpty
        && (SECONDARY_KEYWORDS.filter (fun kw => kwHit kw text)).isEmpty) = true
    · rw [if_pos hps]
      rw [Bool.and_eq_true] at hps
      obtain ⟨hp, hs⟩ := hps
      refine ⟨⟨fun h => by simp at h, ?_⟩, fun _ => rfl⟩
      rintro ⟨-, kw, hor, hhit⟩
      rw [filter_isEmpty_iff] at hp hs
      cases hor with
      | inl h => exact absurd hhit (hp kw h)
      | inr h => exact absurd hhit (hs kw h)
    · rw [if_neg hps]
      refine ⟨⟨fun _ => ⟨(filter_not_isEmpty_iff _ _).mp hr, ?_⟩,
        fun _ => rfl⟩, fun h => by simp at h⟩
      by_cases hp : (PRIMARY_KEYWORDS.filter (fun kw => kwHit kw text)).isEmpty = true
      · have hs : ¬(SECONDARY_KEYWORDS.filter
            (fun kw => kwHit kw text)).isEmpty = true := by
          intro hs
          exact hps (by simp [hp, hs])
        obtain ⟨kw, hkw, hhit⟩ := (filter_not_isEmpty_iff _ _).mp hs
        exact ⟨kw, Or.inr hkw, hhit⟩
      · obtain ⟨kw, hkw, hhit⟩ := (filter_not_isEmpty_iff _ _).mp hp
        exact ⟨kw, Or.inl hkw, hhit⟩

/-- Witness for C1 at concrete inputs: a text with a region keyword and a
primary keyword passes, and a text with neither returns `(false, [])`. -/
theorem C1_matches_keywords_gate_witness :
    (matches_keywords "Operativo antipirateria en Mexico").1 = true ∧
    matches_keywords "hola" = (false, []) :=
  ⟨(C1_matches_keywords_gate "Operativo antipirateria en Mexico").1.mpr
      ⟨⟨"Mexico", by decide, by decide⟩,
        ⟨"antipirateria", Or.inl (by decide), by decide⟩⟩,
    (C1_matches_keywords_gate "hola").2 (by decide)⟩

lemma take_append_self (l₁ l₂ : List String) :
    (l₁ ++ l₂).take l₁.length = l₁ := by simp

lemma drop_append_self (l₁ l₂ : List String) :
    (l₁ ++ l₂).drop l₁.length = l₂ := by simp

/-- C2: on a passing text, `matched_keywords` is exactly
`primary_hits ++ secondary_hits ++ region_hits`, each group being the
in-order filter of the corresponding configured list; in particular the
primary block is the prefix and the region block is the final segment, so
every primary hit precedes every region hit. -/
theorem C2_matched_keywords_order (text : String)
    (h : (matches_keywords text).1 = true) :
    (matches_keywords text).2
        = PRIMARY_KEYWORDS.filter (fun kw => kwHit kw text)
          ++ SECONDARY_KEYWORDS.filter (fun kw => kwHit kw text)
          ++ REGION_KEYWORDS.filter (fun kw => kwHit kw text) ∧
    (matches_keywords text).2.take
        (PRIMARY_KEYWORDS.filter (fun kw => kwHit kw text)).length
      = PRIMARY_KEYWORDS.filter (fun kw => kwHit kw text) ∧
    (matches_keywords text).2.drop
        ((PRIMARY_KEYWORDS.filter (fun kw => kwHit kw text)).length
          + (SECONDARY_KEYWORDS.filter (fun kw => kwHit kw text)).length)
      = REGION_KEYWORDS.filter (fun kw => kwHit kw text) := by
  have hmain : (matches_keywords text).2
      = PRIMARY_KEYWORDS.filter (fun kw => kwHit kw text)
        ++ SECONDARY_KEYWORDS.filter (fun kw => kwHit kw text)
        ++ REGION_KEYWORDS.filter (fun kw => kwHit kw text) := by
    rw [matches_keywords_eq] at h ⊢
    by_cases hr : (REGION_KEYWORDS.filter (fun kw => kwHit kw text)).isEmpty = true
    · rw [if_pos hr] at h
      simp at h
    · rw [if_neg hr] at h ⊢
      by_cases hps : ((PRIMARY_KEYWORDS.filter (fun kw => kwHit kw text)).isEmpty
          && (SECONDARY_KEYWORDS.filter (fun kw => kwHit kw text)).isEmpty) = true
      · rw [if_pos hps] at h
        simp at h
      · rw [if_neg hps]
  refine ⟨hmain, ?_, ?_⟩
  · rw [hmain, List.append_assoc, take_append_self]
  · rw [hmain, ← List.length_append, drop_append_self]

/-- Witness for C2 at a concrete passing text. -/
theorem C2_matched_keywords_order_witness :
    (matches_keywords "Operativo antipirateria en Mexico").2
      = PRIMARY_KEYWORDS.filter
          (fun kw => kwHit kw "Operativo antipirateria en Mexico")
        ++ SECONDARY_KEYWORDS.filter
          (fun kw => kwHit kw "Operativo antipirateria en Mexico")
        ++ REGION_KEYWORDS.filter
          (fun kw => kwHit kw "Operativo antipirateria en Mexico") :=
  (C2_matched_keywords_order "Operativo antipirateria en Mexico" (by decide)).1

/-- C10: the text "viark" passes the filter on its own — the keyword
"VIARK" satisfies both the region gate and the primary gate — and the
returned `matched_keywords` lists "VIARK" twice, once as a primary hit and
once as a region hit. -/
theorem C10_viark_double_report :
    matches_keywords "viark" = (true, ["VIARK", "VIARK"]) := by decide

lemma dedupGo_eq_specGo : ∀ (rows : List Row) (seen : List String)
    (pre : List Row),
    (∀ u, u ≠ "" → (u ∈ seen ↔ ∃ q ∈ pre, q.url = u)) →
    dedupGo seen rows = dedupeSpecGo pre rows := by
  intro rows
  induction rows with
  | nil => intro seen pre _; rfl
  | cons row rest ih =>
    intro seen pre hinv
    by_cases hskip : row.url ≠ "" ∧ row.url ∈ seen
    · have hcond : ¬(row.url = "" ∨ ∀ q ∈ pre, q.url ≠ row.url) := by
        rintro (h0 | hall)
        · exact hskip.1 h0
        · obtain ⟨q, hq, hqu⟩ := (hinv row.url hskip.1).mp hskip.2
          exact hall q hq hqu
      rw [dedupGo, if_pos hskip, dedupeSpecGo, if_neg hcond]
      apply ih
      intro u hu
      rw [hinv u hu]
      constructor
      · rintro ⟨q, hq, hqu⟩
        exact ⟨q, List.mem_append_left _ hq, hqu⟩
      · rintro ⟨q, hq, hqu⟩
        rcases List.mem_append.mp hq with h | h
        · exact ⟨q, h, hqu⟩
        · have : q = row := by simpa using h
          subst this
          exact (hinv u hu).mp (hqu ▸ hskip.2)
    · have hcond : row.url = "" ∨ ∀ q ∈ pre, q.url ≠ row.url := by
        by_cases h0 : row.url = ""
        · exact Or.inl h0
        · right
          intro q hq hqu
          exact hskip ⟨h0, (hinv row.url h0).mpr ⟨q, hq, hqu⟩⟩
      rw [dedupGo, if_neg hskip, dedupeSpecGo, if_pos hcond]
      congr 1
      apply ih
      intro u hu
      constructor
      · intro hm
        rcases List.mem_cons.mp hm with h | h
        · exact ⟨row, List.mem_append_right _ (by simp), h.symm⟩
        · obtain ⟨q, hq, hqu⟩ := (hinv u hu).mp h
          exact ⟨q, List.mem_append_left _ hq, hqu⟩
      · rintro ⟨q, hq, hqu⟩
        rcases List.mem_append.mp hq with h | h
        · exact List.mem_cons_of_mem _ ((hinv u hu).mpr ⟨q, h, hqu⟩)
        · have : q = row := by simpa using h
          subst this
          exact hqu ▸ List.mem_cons_self _ _

lemma dedupGo_sublist : ∀ (rows : List Row) (seen : List String),
    (dedupGo seen rows).Sublist rows := by
  intro rows
  induction rows with
  | nil => intro seen; exact List.Sublist.refl _
  | cons row rest ih =>
    intro seen
    rw [dedupGo]
    by_cases hskip : row.url ≠ "" ∧ row.url ∈ seen
    · rw [if_pos hskip]
      exact (ih seen).cons row
    · rw [if_neg hskip]
      exact (ih (row.url :: seen)).cons₂ row

lemma dedupGo_filter_empty_url : ∀ (rows : List Row) (seen : List String),
    (dedupGo seen rows).filter (fun r => r.url == "")
      = rows.filter (fun r => r.url == "") := by
  intro rows
  induction rows with
  | nil => intro seen; rfl
  | cons row rest ih =>
    intro seen
    rw [dedupGo]
    by_cases hskip : row.url ≠ "" ∧ row.url ∈ seen
    · rw [if_pos hskip, List.filter_cons]
      have : (row.url == "") = false := by
        simpa using hskip.1
      rw [this]
      simp only [Bool.false_eq_true, if_false]
      exact ih seen
    · rw [if_neg hskip, List.filter_cons, List.filter_cons]
      by_cases h0 : row.url = ""
      · have : (row.url == "") = true := by simpa using h0
        rw [this]
        simp only [if_true]
        rw [ih]
      · have : (row.url == "") = false := by simpa using h0
        rw [this]
        simp only [Bool.false_eq_true, if_false]
        exact ih _

/-- C3: `_deduplicate` keeps rows in input order (its output is a sublist
of the input), agrees with the first-occurrence-wins description — a row
with a non-empty URL is kept exactly when no earlier row carries the same
URL — and retains every empty-URL row (the empty-URL rows of the output
are exactly those of the input, in order). -/
theorem C3_deduplicate_first_wins (rows : List Row) :
    _deduplicate rows = dedupeSpec rows ∧
    (_deduplicate rows).Sublist rows ∧
    (_deduplicate rows).filter (fun r => r.url == "")
      = rows.filter (fun r => r.url == "") :=
  ⟨dedupGo_eq_specGo rows [] [] (by simp),
    dedupGo_sublist rows [],
    dedupGo_filter_empty_url rows []⟩

/-- C4: the status taxonomy of `_fetch_page` evaluated on concrete
responses. 401/403/407 yield the authentication/access-denied skip and
contribute zero results; 429/503 yield the rate-limit/anti-bot skip;
400-and-500-class statuses yield "HTTP <code>". The final conjunct
exhibits the slip the claim trips over: HTTP 304 is not a 2xx status, yet
the page is NOT skipped with "HTTP 304" — the code tests `resp.ok`, which
is `status_code < 400`, although its own comment (and the spec) say "any
other non-2xx response". -/
theorem C4_status_taxonomy :
    (processURL (fun _ => true) (fun _ => .ok ⟨403, "", ""⟩) (fun _ => [])
        (fun _ h => h) "https://x/a"
      = ([], [⟨"https://x/a", "HTTP 403 — authentication or access denied"⟩])) ∧
    (_fetch_page (.ok ⟨401, "", ""⟩)
      = (none, some "HTTP 401 — authentication or access denied")) ∧
    (_fetch_page (.ok ⟨407, "", ""⟩)
      = (none, some "HTTP 407 — authentication or access denied")) ∧
    (_fetch_page (.ok ⟨429, "", ""⟩)
      = (none, some "HTTP 429 — rate-limited or anti-bot challenge")) ∧
    (_fetch_page (.ok ⟨503, "", ""⟩)
      = (none, some "HTTP 503 — rate-limited or anti-bot challenge")) ∧
    (_fetch_page (.ok ⟨500, "", ""⟩) = (none, some "HTTP 500")) ∧
    (_fetch_page (.ok ⟨404, "", ""⟩) = (none, some "HTTP 404")) ∧
    (_fetch_page (.ok ⟨304, "text/html", "<html></html>"⟩)
      = (some "<html></html>", none)) := by decide

lemma reMatch_verify_human (rest : List Char) :
    reMatch (strLits "verify" ++ [RAtom.dot] ++ strLits "you" ++ [RAtom.dot]
        ++ strLits "are" ++ [RAtom.dot] ++ strLits "human")
      ("verify you are human".data ++ rest) = true := rfl

lemma reSearch_append (p : List RAtom) (pre s : List Char)
    (h : reMatch p s = true) : reSearch p (pre ++ s) = true := by
  induction pre with
  | nil =>
    cases s with
    | nil => simpa [reSearch] using h
    | cons x s2 => simp [reSearch, h]
  | cons x l ih => simp [reSearch, ih]

lemma captchaSearch_of_verify (s : List Char)
    (h : "please verify you are human".data <:+: s) :
    captchaSearch s = true := by
  rcases h with ⟨pre, suf, heq⟩
  refine List.any_eq_true.mpr
    ⟨strLits "verify" ++ [RAtom.dot] ++ strLits "you" ++ [RAtom.dot]
        ++ strLits "are" ++ [RAtom.dot] ++ strLits "human", by decide, ?_⟩
  have hs : s = (pre ++ "please ".data)
      ++ ("verify you are human".data ++ suf) := by
    rw [← heq]
    have hmid : ("please verify you are human".data : List Char)
        = "please ".data ++ "verify you are human".data := by decide
    rw [hmid]
    simp [List.append_assoc]
  rw [hs]
  exact reSearch_append _ _ _ (reMatch_verify_human suf)

/-- C5: on a 200 HTML response, a CAPTCHA pattern occurrence in the first
5000 characters of the body — in particular the literal substring
"please verify you are human" — makes `_fetch_page` skip the whole page
with the CAPTCHA reason, while a body whose first 5000 characters are
clean is returned whole, regardless of pattern occurrences further on. -/
theorem C5_captcha_first_slice (resp : HttpResponse)
    (hstatus : resp.status_code = 200)
    (hct : resp.content_type = "text/html") :
    ("please verify you are human".data <:+: resp.body.data.take 5000 →
      _fetch_page (.ok resp)
        = (none, some "Page contains a CAPTCHA or anti-bot challenge")) ∧
    (captchaSearch (resp.body.data.take 5000) = true →
      _fetch_page (.ok resp)
        = (none, some "Page contains a CAPTCHA or anti-bot challenge")) ∧
    (captchaSearch (resp.body.data.take 5000) = false →
      _fetch_page (.ok resp) = (some resp.body, none)) := by
  obtain ⟨s, ct, body⟩ := resp
  simp only at hstatus hct
  subst hstatus hct
  have hfe : _fetch_page (.ok ⟨200, "text/html", body⟩)
      = if captchaSearch (body.data.take 5000) then
          (none, some "Page contains a CAPTCHA or anti-bot challenge")
        else (some body, none) := rfl
  refine ⟨fun hinf => ?_, fun hc => ?_, fun hc => ?_⟩
  · rw [hfe, captchaSearch_of_verify _ hinf]
    simp
  · rw [hfe, hc]
    simp
  · rw [hfe, hc]
    simp

/-- Witness for C5: a concrete 200 HTML page whose body contains the
CAPTCHA phrase is skipped with the CAPTCHA reason. -/
theorem C5_captcha_first_slice_witness :
    _fetch_page (.ok ⟨200, "text/html", "xx please verify you are human yy"⟩)
      = (none, some "Page contains a CAPTCHA or anti-bot challenge") :=
  (C5_captcha_first_slice ⟨200, "text/html",
      "xx please verify you are human yy"⟩ rfl rfl).1 (by decide)

lemma extract_go_inv (resolve : String → String) :
    ∀ (anchors : List Anchor) (seen : List String) (entries : List PageEntry),
    entries.length < 200 →
    (∀ e ∈ entries, e.url ∈ seen) →
    entries.Pairwise (fun a b => a.url ≠ b.url) →
    (∀ e ∈ entries, 15 ≤ e.text.length) →
    (_extract_entries_go resolve seen entries anchors).length ≤ 200 ∧
    (∀ e ∈ _extract_entries_go resolve seen entries anchors,
      15 ≤ e.text.length) ∧
    (_extract_entries_go resolve seen entries anchors).Pairwise
      (fun a b => a.url ≠ b.url) := by
  intro anchors
  induction anchors with
  | nil =>
    intro seen entries h1 _ h3 h4
    exact ⟨Nat.le_of_lt h1, h4, h3⟩
  | cons a rest ih =>
    intro seen entries h1 h2 h3 h4
    rw [_extract_entries_go]
    by_cases hskip : (pyStrip a.href == ""
        || strStarts (pyStrip a.href) "#"
        || strStarts (pyStrip a.href) "javascript:"
        || strStarts (pyStrip a.href) "mailto:") = true
    · rw [if_pos hskip]
      exact ih seen entries h1 h2 h3 h4
    · rw [if_neg hskip]
      by_cases hseen : resolve (pyStrip a.href) ∈ seen
      · rw [if_pos hseen]
        exact ih seen entries h1 h2 h3 h4
      · rw [if_neg hseen]
        set text := if a.containerText == "" then a.anchorText
          else a.containerText with htext
        by_cases hshort : text.length < 15
        · rw [if_pos hshort]
          refine ih _ entries h1 (fun e he => ?_) h3 h4
          exact List.mem_cons_of_mem _ (h2 e he)
        · rw [if_neg hshort]
          have hlen15 : 15 ≤ text.length := Nat.le_of_not_lt hshort
          have hpw : (entries
              ++ [(⟨resolve (pyStrip a.href), text⟩ : PageEntry)]).Pairwise
              (fun x y => x.url ≠ y.url) := by
            rw [List.pairwise_append]
            refine ⟨h3, List.pairwise_singleton _ _, ?_⟩
            intro x hx y hy
            have hy2 : y = (⟨resolve (pyStrip a.href), text⟩ : PageEntry) := by
              simpa using hy
            subst hy2
            intro hxy
            have hx2 := h2 x hx
            rw [hxy] at hx2
            exact hseen hx2
          have hmem : ∀ e ∈ entries ++ [(⟨resolve (pyStrip a.href), text⟩ : PageEntry)],
              15 ≤ e.text.length := by
            intro e he
            rcases List.mem_append.mp he with h | h
            · exact h4 e h
            · have : e = (⟨resolve (pyStrip a.href), text⟩ : PageEntry) := by simpa using h
              subst this
              exact hlen15
          by_cases hcap : 200 ≤ (entries
              ++ [(⟨resolve (pyStrip a.href), text⟩ : PageEntry)]).length
          · rw [if_pos hcap]
            refine ⟨?_, hmem, hpw⟩
            rw [List.length_append, List.length_singleton]
            exact h1
          · rw [if_neg hcap]
            refine ih _ _ (Nat.lt_of_not_le hcap) ?_ hpw hmem
            intro e he
            rcases List.mem_append.mp he with h | h
            · exact List.mem_cons_of_mem _ (h2 e h)
            · have : e = (⟨resolve (pyStrip a.href), text⟩ : PageEntry) := by simpa using h
              subst this
              exact List.mem_cons_self _ _

lemma extract_go_eq_spec (resolve : String → String) :
    ∀ (anchors : List Anchor) (seen : List String) (pre : List Anchor)
      (entries : List PageEntry),
    (∀ u, u ∈ seen ↔ ∃ b ∈ pre.filter hrefAccepted,
      resolve (pyStrip b.href) = u) →
    _extract_entries_go resolve seen entries anchors
      = extractSpecGo resolve pre entries anchors := by
  intro anchors
  induction anchors with
  | nil => intro seen pre entries _; rfl
  | cons a rest ih =>
    intro seen pre entries hinv
    rw [_extract_entries_go, extractSpecGo]
    by_cases hcond : (pyStrip a.href == "" || strStarts (pyStrip a.href) "#"
        || strStarts (pyStrip a.href) "javascript:"
        || strStarts (pyStrip a.href) "mailto:") = true
    · rw [if_pos hcond]
      have hacc : hrefAccepted a = false := by
        simp only [hrefAccepted, hcond, Bool.not_true]
      rw [if_pos hacc]
      have hfilter : (pre ++ [a]).filter hrefAccepted
          = pre.filter hrefAccepted := by
        rw [List.filter_append]
        simp [hacc]
      refine ih seen (pre ++ [a]) entries ?_
      intro u
      rw [hfilter]
      exact hinv u
    · rw [if_neg hcond]
      have hacc2 : hrefAccepted a = true := by
        simp only [hrefAccepted, Bool.not_eq_true']
        exact Bool.of_not_eq_true hcond
      have hacc : ¬ hrefAccepted a = false := by
        rw [hacc2]
        simp
      rw [if_neg hacc]
      have hfilter : (pre ++ [a]).filter hrefAccepted
          = pre.filter hrefAccepted ++ [a] := by
        rw [List.filter_append]
        simp [hacc2]
      by_cases hseen : resolve (pyStrip a.href) ∈ seen
      · have hany : ((pre.filter hrefAccepted).any
            (fun b => resolve (pyStrip b.href)
              == resolve (pyStrip a.href))) = true := by
          obtain ⟨b, hb, hbu⟩ := (hinv _).mp hseen
          exact List.any_eq_true.mpr ⟨b, hb, by simp [hbu]⟩
        rw [if_pos hseen, if_pos hany]
        refine ih seen (pre ++ [a]) entries ?_
        intro u
        rw [hinv u, hfilter]
        constructor
        · rintro ⟨b, hb, hbu⟩
          exact ⟨b, List.mem_append_left _ hb, hbu⟩
        · rintro ⟨b, hb, hbu⟩
          rcases List.mem_append.mp hb with h | h
          · exact ⟨b, h, hbu⟩
          · have hba : b = a := by simpa using h
            subst hba
            exact (hinv u).mp (hbu ▸ hseen)
      · have hany : ¬ ((pre.filter hrefAccepted).any
            (fun b => resolve (pyStrip b.href)
              == resolve (pyStrip a.href))) = true := by
          intro hany
          obtain ⟨b, hb, hbe⟩ := List.any_eq_true.mp hany
          rw [beq_iff_eq] at hbe
          exact hseen ((hinv _).mpr ⟨b, hb, hbe⟩)
        rw [if_neg hseen, if_neg hany]
        have hinv2 : ∀ u, u ∈ resolve (pyStrip a.href) :: seen ↔
            ∃ b ∈ (pre ++ [a]).filter hrefAccepted,
              resolve (pyStrip b.href) = u := by
          intro u
          rw [hfilter]
          constructor
          · intro hu
            rcases List.mem_cons.mp hu with h | h
            · exact ⟨a, List.mem_append_right _ (by simp), h.symm⟩
            · obtain ⟨b, hb, hbu⟩ := (hinv u).mp h
              exact ⟨b, List.mem_append_left _ hb, hbu⟩
          · rintro ⟨b, hb, hbu⟩
            rcases List.mem_append.mp hb with h | h
            · exact List.mem_cons_of_mem _ ((hinv u).mpr ⟨b, h, hbu⟩)
            · have hba : b = a := by simpa using h
              subst hba
              exact hbu ▸ List.mem_cons_self _ _
        simp only [contextTextOf]
        by_cases hshort : (if a.containerText == "" then a.anchorText
            else a.containerText).length < 15
        · rw [if_pos hshort, if_pos hshort]
          exact ih _ (pre ++ [a]) entries hinv2
        · rw [if_neg hshort, if_neg hshort]
          by_cases hcap : 200 ≤ (entries
              ++ [(⟨resolve (pyStrip a.href),
                if a.containerText == "" then a.anchorText
                else a.containerText⟩ : PageEntry)]).length
          · rw [if_pos hcap, if_pos hcap]
          · rw [if_neg hcap, if_neg hcap]
            exact ih _ (pre ++ [a]) _ hinv2

/-- C6: for every parsed page, `_extract_entries` agrees with the
first-occurrence-wins description — among anchors resolving to the same
absolute URL, only the first is considered — and returns at most 200
entries, the context text of every returned entry is at least 15
characters long, and no two returned entries share the same absolute URL
resolved against the base URL of the page. -/
theorem C6_extract_entries_bounds (resolve : String → String → String)
    (base_url : String) (anchors : List Anchor) :
    _extract_entries resolve base_url anchors
      = extractSpec resolve base_url anchors ∧
    (_extract_entries resolve base_url anchors).length ≤ 200 ∧
    (∀ e ∈ _extract_entries resolve base_url anchors, 15 ≤ e.text.length) ∧
    (_extract_entries resolve base_url anchors).Pairwise
      (fun a b => a.url ≠ b.url) :=
  ⟨extract_go_eq_spec (resolve base_url) anchors [] [] [] (by simp),
    extract_go_inv (resolve base_url) anchors [] []
      (by simp) (by simp) (by simp) (by simp)⟩

/-- C7: a provider failure is returned as the explicit error object —
never as a (possibly empty) result array — and a provider success is
returned as the array of exactly the keyword-filtered hits, each carrying
the `matched_keywords` of its own `title + " " + snippet` text. -/
theorem C7_search_error_contract :
    (∀ msg, googleExecute (.error msg) = .error msg) ∧
    (∀ msg hits, googleExecute (.error msg) ≠ .results hits) ∧
    (∀ items, googleExecute (.ok items)
      = .results (hitsOf (googleExecute (.ok items)))) ∧
    (∀ items, ∀ h ∈ hitsOf (googleExecute (.ok items)),
      (matches_keywords (h.title ++ " " ++ h.snippet)).1 = true ∧
      h.matched_keywords
        = (matches_keywords (h.title ++ " " ++ h.snippet)).2) := by
  refine ⟨fun msg => rfl, ?_, fun items => rfl, ?_⟩
  · intro msg hits h
    simp [googleExecute] at h
  intro items h hmem
  simp only [googleExecute, hitsOf] at hmem
  obtain ⟨it, -, heq⟩ := List.mem_filterMap.mp hmem
  by_cases hpass : (matches_keywords (it.title ++ " " ++ it.snippet)).1 = true
  · rw [if_pos hpass] at heq
    obtain rfl : (⟨it.title, it.link, it.snippet,
        (matches_keywords (it.title ++ " " ++ it.snippet)).2⟩ : SearchHit)
        = h := Option.some.inj heq
    exact ⟨hpass, rfl⟩
  · rw [if_neg hpass] at heq
    cases heq

/-- Witness for C7: a concrete passing item is kept with a passing text. -/
theorem C7_search_error_contract_witness :
    (matches_keywords
      ("Operativo antipirateria" ++ " " ++ "en Mexico")).1 = true :=
  (C7_search_error_contract.2.2.2
    [⟨"Operativo antipirateria", "https://x/n", "en Mexico"⟩]
    ⟨"Operativo antipirateria", "https://x/n", "en Mexico",
      (matches_keywords ("Operativo antipirateria" ++ " " ++ "en Mexico")).2⟩
    (by decide)).1

lemma feedExecute_cons (validate : String → Bool) (fetchFeed : String → Feed)
    (url : String) (rest : List String) (hv : validate url = true)
    (hz : _parse_feed url (fetchFeed url) = []) :
    feedExecute validate fetchFeed (url :: rest)
      = feedExecute validate fetchFeed rest := by
  simp only [feedExecute, List.filter_cons, hv, if_true]
  rw [List.flatMap_cons, hz, List.nil_append]

/-- C8: feed URLs failing validation are silently dropped — the output
over any URL list equals the output over its validated sublist, and a
single invalid URL contributes nothing — and a feed reporting a non-200
status, or parsing to no entries, contributes zero candidates while the
remaining feeds are still processed. The output type is a bare candidate
list: no error record exists for the dropped URLs. -/
theorem C8_feed_silent_drop (validate : String → Bool)
    (fetchFeed : String → Feed) :
    (∀ feed_urls, feedExecute validate fetchFeed feed_urls
      = feedExecute validate fetchFeed (feed_urls.filter validate)) ∧
    (∀ url rest, validate url = false →
      feedExecute validate fetchFeed (url :: rest)
        = feedExecute validate fetchFeed rest) ∧
    (∀ url rest, validate url = true →
      ((∃ s, (fetchFeed url).status = some s ∧ s ≠ 200) ∨
        (fetchFeed url).entries = []) →
      feedExecute validate fetchFeed (url :: rest)
        = feedExecute validate fetchFeed rest) := by
  refine ⟨?_, ?_, ?_⟩
  · intro feed_urls
    simp only [feedExecute, List.filter_filter, Bool.and_self]
  · intro url rest hv
    simp only [feedExecute, List.filter_cons, hv, Bool.false_eq_true, if_false]
  · intro url rest hv hbad
    refine feedExecute_cons validate fetchFeed url rest hv ?_
    rcases hbad with ⟨s, hs, hne⟩ | hent
    · simp only [_parse_feed, hs]
      rw [if_pos (by simpa using hne)]
    · simp [_parse_feed, hent]

/-- Witness for C8: a concrete feed reporting HTTP 404 contributes zero
candidates, and processing continues with the remaining URL list. -/
theorem C8_feed_silent_drop_witness :
    feedExecute (fun _ => true)
      (fun _ => ⟨some 404, [⟨"Operativo antipirateria", "en Mexico", "https://x/n", ""⟩]⟩)
      ["https://feed.example/rss"]
    = feedExecute (fun _ => true)
      (fun _ => ⟨some 404, [⟨"Operativo antipirateria", "en Mexico", "https://x/n", ""⟩]⟩)
      [] :=
  (C8_feed_silent_drop (fun _ => true)
    (fun _ => ⟨some 404, [⟨"Operativo antipirateria", "en Mexico", "https://x/n", ""⟩]⟩)).2.2
    "https://feed.example/rss" [] rfl (Or.inl ⟨404, rfl, by decide⟩)

lemma matches_keywords_passes_parts (t : String)
    (h : (matches_keywords t).1 = true) :
    (matches_keywords t).2 ≠ [] ∧
    (∃ kw ∈ REGION_KEYWORDS, kwHit kw t = true ∧
      kw ∈ (matches_keywords t).2) ∧
    (∃ kw, (kw ∈ PRIMARY_KEYWORDS ∨ kw ∈ SECONDARY_KEYWORDS) ∧
      kwHit kw t = true ∧ kw ∈ (matches_keywords t).2) := by
  by_cases hr : (REGION_KEYWORDS.filter (fun kw => kwHit kw t)).isEmpty = true
  · rw [matches_keywords_eq, if_pos hr] at h
    simp at h
  · by_cases hps : ((PRIMARY_KEYWORDS.filter (fun kw => kwHit kw t)).isEmpty
        && (SECONDARY_KEYWORDS.filter (fun kw => kwHit kw t)).isEmpty) = true
    · rw [matches_keywords_eq, if_neg hr, if_pos hps] at h
      simp at h
    · have hsnd : (matches_keywords t).2
          = PRIMARY_KEYWORDS.filter (fun kw => kwHit kw t)
            ++ SECONDARY_KEYWORDS.filter (fun kw => kwHit kw t)
            ++ REGION_KEYWORDS.filter (fun kw => kwHit kw t) := by
        rw [matches_keywords_eq, if_neg hr, if_neg hps]
      obtain ⟨kwr, hkr, hhr⟩ := (filter_not_isEmpty_iff _ _).mp hr
      have hkrf : kwr ∈ REGION_KEYWORDS.filter (fun kw => kwHit kw t) :=
        List.mem_filter.mpr ⟨hkr, hhr⟩
      refine ⟨?_, ⟨kwr, hkr, hhr, ?_⟩, ?_⟩
      · rw [hsnd]
        intro hnil
        rw [List.append_eq_nil] at hnil
        rw [List.isEmpty_iff] at hr
        exact hr hnil.2
      · rw [hsnd]
        exact List.mem_append_right _ hkrf
      · by_cases hp : (PRIMARY_KEYWORDS.filter
            (fun kw => kwHit kw t)).isEmpty = true
        · have hs : ¬(SECONDARY_KEYWORDS.filter
              (fun kw => kwHit kw t)).isEmpty = true := by
            intro hs
            exact hps (by simp [hp, hs])
          obtain ⟨kw, hkw, hhit⟩ := (filter_not_isEmpty_iff _ _).mp hs
          refine ⟨kw, Or.inr hkw, hhit, ?_⟩
          rw [hsnd]
          exact List.mem_append_left _
            (List.mem_append_right _ (List.mem_filter.mpr ⟨hkw, hhit⟩))
        · obtain ⟨kw, hkw, hhit⟩ := (filter_not_isEmpty_iff _ _).mp hp
          refine ⟨kw, Or.inl hkw, hhit, ?_⟩
          rw [hsnd]
          exact List.mem_append_left _
            (List.mem_append_left _ (List.mem_filter.mpr ⟨hkw, hhit⟩))

/-- C9: every candidate emitted by the three adapters carries a non-empty
`matched_keywords` list: a passing text always yields a non-empty matched
list containing a region hit and a primary-or-secondary hit, and each
adapter attaches `matched_keywords` only on a pass. -/
theorem C9_candidate_invariant :
    (∀ t, (matches_keywords t).1 = true →
      (matches_keywords t).2 ≠ [] ∧
      (∃ kw ∈ REGION_KEYWORDS, kwHit kw t = true ∧
        kw ∈ (matches_keywords t).2) ∧
      (∃ kw, (kw ∈ PRIMARY_KEYWORDS ∨ kw ∈ SECONDARY_KEYWORDS) ∧
        kwHit kw t = true ∧ kw ∈ (matches_keywords t).2)) ∧
    (∀ (validate : String → Bool) (fetchFeed : String → Feed) urls,
      ∀ c ∈ feedExecute validate fetchFeed urls, c.matched_keywords ≠ []) ∧
    (∀ items, ∀ h ∈ hitsOf (googleExecute (.ok items)),
      h.matched_keywords ≠ []) ∧
    (∀ entries src, ∀ r ∈ _filter_entries entries src,
      r.matched_keywords ≠ []) := by
  refine ⟨matches_keywords_passes_parts, ?_, ?_, ?_⟩
  · intro validate fetchFeed urls c hc
    simp only [feedExecute] at hc
    obtain ⟨article, -, heq⟩ := List.mem_filterMap.mp hc
    by_cases hpass :
        (matches_keywords (article.title ++ " " ++ article.summary)).1 = true
    · rw [if_pos hpass] at heq
      obtain rfl := Option.some.inj heq
      exact (matches_keywords_passes_parts _ hpass).1
    · rw [if_neg hpass] at heq
      cases heq
  · intro items h hmem
    simp only [googleExecute, hitsOf] at hmem
    obtain ⟨it, -, heq⟩ := List.mem_filterMap.mp hmem
    by_cases hpass :
        (matches_keywords (it.title ++ " " ++ it.snippet)).1 = true
    · rw [if_pos hpass] at heq
      obtain rfl := Option.some.inj heq
      exact (matches_keywords_passes_parts _ hpass).1
    · rw [if_neg hpass] at heq
      cases heq
  · intro entries src r hr
    simp only [_filter_entries] at hr
    obtain ⟨entry, -, heq⟩ := List.mem_filterMap.mp hr
    by_cases hpass : (matches_keywords entry.text).1 = true
    · rw [if_pos hpass] at heq
      obtain rfl := Option.some.inj heq
      exact (matches_keywords_passes_parts _ hpass).1
    · rw [if_neg hpass] at heq
      cases heq

/-- Witness for C9: concrete candidates of each adapter carry non-empty
`matched_keywords`. -/
theorem C9_candidate_invariant_witness :
    (matches_keywords "viark").2 ≠ [] ∧
    (⟨"", "https://x/n", "Operativo antipirateria", "en Mexico",
      "https://feed.example/rss",
      (matches_keywords
        ("Operativo antipirateria" ++ " " ++ "en Mexico")).2⟩ :
          FeedCandidate).matched_keywords ≠ [] ∧
    (⟨"Operativo antipirateria", "https://x/n", "en Mexico",
      (matches_keywords
        ("Operativo antipirateria" ++ " " ++ "en Mexico")).2⟩ :
          SearchHit).matched_keywords ≠ [] ∧
    (⟨"https://x/p", "Operativo antipirateria en Mexico",
      (matches_keywords "Operativo antipirateria en Mexico").2,
      "https://src.example/"⟩ : ScrapeResult).matched_keywords ≠ [] :=
  ⟨(C9_candidate_invariant.1 "viark" (by decide)).1,
    C9_candidate_invariant.2.1 (fun _ => true)
      (fun _ => ⟨some 200,
        [⟨"Operativo antipirateria", "en Mexico", "https://x/n", ""⟩]⟩)
      ["https://feed.example/rss"] _ (by decide),
    C9_candidate_invariant.2.2.1
      [⟨"Operativo antipirateria", "https://x/n", "en Mexico"⟩] _ (by decide),
    C9_candidate_invariant.2.2.2
      [⟨"https://x/p", "Operativo antipirateria en Mexico"⟩]
      "https://src.example/" _ (by decide)⟩
